import Mathlib

/-!
# Verification of the KiirooControl SDK core

Shallow embedding of the KiirooControlSDK repository
(`react_native/src/DeviceSensorEvents.ts`, `react_native/src/BleManagerSensor.ts`
and the React variant listed in `react/README.md`) together with proofs of the
spec's claims about it.

Conventions of the embedding:
* JS numbers that hold integer values are modelled as `Int` (or `Nat` where the
  source only ever stores non-negative bytes); `Math.round`/`Math.sqrt` are
  modelled with exact arithmetic (the operands in this code base are far from
  any floating-point tie).
* Promise-returning code that can reject is modelled with `Except String`;
  the reject payloads keep the source's message strings.
* The `for (let i = 0; i < L; i += P)` chunking loop of `flashFirmware` is
  modelled with an explicit fuel parameter so that its non-termination for a
  non-positive step is expressible (`none` = the loop did not finish).
-/

namespace KiirooSDK

/-! ## JS array slice and the chunking loop of `flashFirmware`

Source (`DeviceSensorEvents.ts`, `flashFirmware`):
```
const chunks = [];
for (let i = 0; i < firmware.length; i += packetSize) {
  chunks.push(firmware.slice(i, i + packetSize));
}
```
-/

/-- JS `Array.prototype.slice(start, end)` on a list: negative indices count
from the end, and both indices are clamped to `[0, length]`. -/
def jsSlice {α : Type} (l : List α) (i j : Int) : List α :=
  let L : Int := l.length
  let s : Int := if i < 0 then max (L + i) 0 else min i L
  let e : Int := if j < 0 then max (L + j) 0 else min j L
  (l.drop s.toNat).take (e - s).toNat

/-- The chunking `for` loop of `flashFirmware`, fuel-indexed: one unit of fuel
per iteration. `none` means the fuel ran out with the loop still running —
used below to show the loop never finishes when the step `P` is non-positive
and the firmware is non-empty. -/
def chunkLoop {α : Type} (fw : List α) (P : Int) : Nat → Int → Option (List (List α))
  | 0, i => if i < (fw.length : Int) then none else some []
  | f + 1, i =>
      if i < (fw.length : Int) then
        (chunkLoop fw P f (i + P)).map (jsSlice fw i (i + P) :: ·)
      else some []

/-- The chunk list `flashFirmware` builds: the loop run from index `0` with
enough fuel (`length + 1` iterations always suffice when `P ≥ 1`). -/
def chunks {α : Type} (fw : List α) (P : Int) : Option (List (List α)) :=
  chunkLoop fw P (fw.length + 1) 0

/-- Clean take/drop presentation of the same chunking (head-consuming so that
it is total; it agrees with the source loop whenever `P ≥ 1`). -/
def chunksTD {α : Type} (P : Nat) : List α → List (List α)
  | [] => []
  | a :: t => (a :: t.take (P - 1)) :: chunksTD P (t.drop (P - 1))
termination_by l => l.length
decreasing_by
  simp only [List.length_drop, List.length_cons]
  omega

theorem chunksTD_nil {α : Type} (P : Nat) : chunksTD P ([] : List α) = [] := by
  simp [chunksTD]

theorem chunksTD_cons {α : Type} (P : Nat) (hP : 1 ≤ P) (a : α) (t : List α) :
    chunksTD P (a :: t) = (a :: t).take P :: chunksTD P ((a :: t).drop P) := by
  obtain ⟨Q, rfl⟩ : ∃ Q, P = Q + 1 := ⟨P - 1, by omega⟩
  simp [chunksTD]

/-- Unfolding of `chunksTD` on an arbitrary non-empty list. -/
theorem chunksTD_eq_cons {α : Type} (P : Nat) (hP : 1 ≤ P) (l : List α) (hl : l ≠ []) :
    chunksTD P l = l.take P :: chunksTD P (l.drop P) := by
  cases l with
  | nil => simp at hl
  | cons a t => exact chunksTD_cons P hP a t

/-- `jsSlice` at non-negative in-range start with positive width is
take-after-drop. -/
theorem jsSlice_eq_take_drop {α : Type} (l : List α) (i : Nat) (P : Int)
    (hP : 1 ≤ P) (hi : i < l.length) :
    jsSlice l i (i + P) = (l.drop i).take P.toNat := by
  unfold jsSlice
  have h0 : ¬ ((i : Int) < 0) := by omega
  have h1 : ¬ ((i : Int) + P < 0) := by omega
  have hmin : min (i : Int) (l.length : Int) = (i : Int) := by omega
  simp only [h0, h1, if_false, hmin]
  have h3 : ((i : Int)).toNat = i := by omega
  rcases le_or_lt ((i : Int) + P) (l.length : Int) with h | h
  · have hm : min ((i : Int) + P) (l.length : Int) = (i : Int) + P := by omega
    have h2 : ((i : Int) + P - i).toNat = P.toNat := by omega
    rw [hm, h2, h3]
  · have hm : min ((i : Int) + P) (l.length : Int) = (l.length : Int) := by omega
    have h4 : ((l.length : Int) - i).toNat = l.length - i := by omega
    rw [hm, h3, h4]
    rw [List.take_of_length_le (by simp [List.length_drop]),
        List.take_of_length_le (by simp [List.length_drop]; omega)]

/-- With step `P ≥ 1` and fuel at least the remaining length, the source loop
finishes and produces exactly the take/drop chunks of the rest of the list. -/
theorem chunkLoop_eq_chunksTD {α : Type} (fw : List α) (P : Int) (hP : 1 ≤ P) :
    ∀ (fuel : Nat) (i : Nat), fw.length ≤ i + fuel →
      chunkLoop fw P fuel i = some (chunksTD P.toNat (fw.drop i)) := by
  intro fuel
  induction fuel with
  | zero =>
      intro i hfi
      have : ¬ ((i : Int) < (fw.length : Int)) := by omega
      simp only [chunkLoop, this, if_false]
      rw [List.drop_of_length_le (by omega), chunksTD_nil]
  | succ f ih =>
      intro i hfi
      by_cases hlt : (i : Int) < (fw.length : Int)
      · have hiN : i < fw.length := by omega
        have hrec := ih (i + P.toNat) (by omega)
        have hcast : (i : Int) + P = ((i + P.toNat : Nat) : Int) := by
          push_cast; omega
        have hrec' : chunkLoop fw P f ((i : Int) + P) =
            some (chunksTD P.toNat (fw.drop (i + P.toNat))) := by
          rw [hcast]; exact hrec
        simp only [chunkLoop, hlt, if_true, hrec', Option.map_some']
        congr 1
        rw [jsSlice_eq_take_drop fw i P hP hiN]
        rw [chunksTD_eq_cons P.toNat (by omega) (fw.drop i)
              (by simp [List.drop_eq_nil_iff]; omega)]
        simp [List.drop_drop, Nat.add_comm]
      · simp only [chunkLoop, hlt, if_false]
        rw [List.drop_of_length_le (by omega), chunksTD_nil]

/-- The chunk list of `flashFirmware` for positive packet size. -/
theorem chunks_eq_chunksTD {α : Type} (fw : List α) (P : Int) (hP : 1 ≤ P) :
    chunks fw P = some (chunksTD P.toNat fw) := by
  have h := chunkLoop_eq_chunksTD fw P hP (fw.length + 1) 0 (by omega)
  simpa [chunks] using h

/-- For a non-positive step and non-empty firmware the loop body never brings
`i` past the length: the loop does not terminate, whatever the fuel. -/
theorem chunkLoop_none_of_nonpos {α : Type} (fw : List α) (P : Int) (hP : P ≤ 0)
    (hfw : 0 < fw.length) :
    ∀ (fuel : Nat) (i : Int), i ≤ 0 → chunkLoop fw P fuel i = none := by
  intro fuel
  induction fuel with
  | zero =>
      intro i hi
      have : (i : Int) < (fw.length : Int) := by omega
      simp [chunkLoop, this]
  | succ f ih =>
      intro i hi
      have hlt : (i : Int) < (fw.length : Int) := by omega
      simp only [chunkLoop, hlt, if_true]
      rw [ih (i + P) (by omega)]
      rfl

/-- Concatenating the chunks gives back the list (round-trip law). -/
theorem chunksTD_flatten {α : Type} (P : Nat) (hP : 1 ≤ P) :
    ∀ (n : Nat) (l : List α), l.length ≤ n → (chunksTD P l).flatten = l := by
  intro n
  induction n with
  | zero =>
      intro l h
      have : l = [] := List.length_eq_zero.mp (by omega)
      subst this
      simp [chunksTD_nil]
  | succ n ih =>
      intro l h
      cases l with
      | nil => simp [chunksTD_nil]
      | cons a t =>
          rw [chunksTD_cons P hP, List.flatten_cons,
              ih ((a :: t).drop P)
                (by simp only [List.length_drop, List.length_cons]
                    simp only [List.length_cons] at h
                    omega)]
          exact List.take_append_drop P (a :: t)

/-- The number of chunks is `⌈length / P⌉`. -/
theorem chunksTD_length {α : Type} (P : Nat) (hP : 1 ≤ P) :
    ∀ (n : Nat) (l : List α), l.length ≤ n →
      (chunksTD P l).length = (l.length + P - 1) / P := by
  intro n
  induction n with
  | zero =>
      intro l h
      have : l = [] := List.length_eq_zero.mp (by omega)
      subst this
      rw [chunksTD_nil]
      simp [Nat.div_eq_of_lt (by omega : P - 1 < P)]
  | succ n ih =>
      intro l h
      cases l with
      | nil =>
          rw [chunksTD_nil]
          simp [Nat.div_eq_of_lt (by omega : P - 1 < P)]
      | cons a t =>
          rw [chunksTD_cons P hP, List.length_cons,
              ih ((a :: t).drop P)
                (by simp only [List.length_drop, List.length_cons]
                    simp only [List.length_cons] at h
                    omega)]
          simp only [List.length_drop, List.length_cons]
          rcases le_or_lt P (t.length + 1) with hle | hlt
          · have h1 : t.length + 1 - P + P - 1 = t.length := by omega
            have h2 : t.length + 1 + P - 1 = t.length + P := by omega
            rw [h1, h2, Nat.add_div_right _ (by omega)]
          · have h1 : t.length + 1 - P = 0 := by omega
            rw [h1]
            rw [Nat.div_eq_of_lt (by omega : 0 + P - 1 < P)]
            have h2 : t.length + 1 + P - 1 = P + t.length := by omega
            rw [h2]
            have hdiv : (P + t.length) / P = 1 :=
              Nat.div_eq_of_lt_le (by omega) (by omega)
            rw [hdiv]

/-- Chunk `j` is the slice of the list at offset `j * P` (so the chunks sit
at ascending offsets, with no gaps and no overlaps). -/
theorem chunksTD_getElemOpt {α : Type} (P : Nat) (hP : 1 ≤ P) :
    ∀ (n : Nat) (l : List α), l.length ≤ n →
      ∀ (j : Nat), j < (chunksTD P l).length →
        (chunksTD P l)[j]? = some ((l.drop (j * P)).take P) := by
  intro n
  induction n with
  | zero =>
      intro l hn j h
      have : l = [] := List.length_eq_zero.mp (by omega)
      subst this
      rw [chunksTD_nil] at h
      exact absurd h (by simp)
  | succ n ih =>
      intro l hn j h
      cases l with
      | nil =>
          rw [chunksTD_nil] at h
          exact absurd h (by simp)
      | cons a t =>
          rw [chunksTD_cons P hP] at h ⊢
          cases j with
          | zero => simp
          | succ j =>
              have h' : j < (chunksTD P ((a :: t).drop P)).length := by
                simpa using h
              have hrec := ih ((a :: t).drop P)
                (by simp only [List.length_drop, List.length_cons]
                    simp only [List.length_cons] at hn
                    omega) j h'
              rw [List.getElem?_cons_succ, hrec, List.drop_drop]
              congr 3
              ring

/-- Total-indexing form of `chunksTD_getElemOpt`. -/
theorem chunksTD_getElem {α : Type} (P : Nat) (hP : 1 ≤ P)
    (l : List α) (j : Nat) (h : j < (chunksTD P l).length) :
    (chunksTD P l)[j] = (l.drop (j * P)).take P := by
  have h1 := chunksTD_getElemOpt P hP l.length l le_rfl j h
  rw [List.getElem?_eq_getElem h] at h1
  exact Option.some.inj h1

/-- Arithmetic bounds of the ceiling chunk count, used for chunk lengths. -/
theorem ceil_count_bounds (L P : Nat) (hP : 1 ≤ P) (hL : 0 < L) :
    ((L + P - 1) / P - 1) * P < L ∧ L ≤ ((L + P - 1) / P) * P ∧
      1 ≤ (L + P - 1) / P := by
  have hdm := Nat.div_add_mod (L + P - 1) P
  have hmod : (L + P - 1) % P < P := Nat.mod_lt _ (by omega)
  have h1 : 1 ≤ (L + P - 1) / P := (Nat.one_le_div_iff (by omega)).mpr (by omega)
  rw [Nat.sub_mul, Nat.one_mul]
  rw [Nat.mul_comm] at hdm
  set a := (L + P - 1) / P * P with ha
  refine ⟨by omega, by omega, h1⟩

/-- C1: for a firmware image of length `L > 0` and packet size `P ≥ 1`, the
chunking loop of `flashFirmware` terminates and produces exactly `⌈L/P⌉`
chunks; chunk `j` is the image's slice at offset `j*P` (ascending offsets,
no gaps or overlaps); every chunk but the last has length `P`; the last has
length `L - P·(count−1)`; and concatenating the chunks in emission order
reproduces the image byte for byte. -/
theorem flashFirmware_chunking_spec (fw : List Int) (P : Int)
    (hP : 1 ≤ P) (hL : 0 < fw.length) :
    ∃ cs : List (List Int),
      chunks fw P = some cs ∧
      cs.length = (fw.length + P.toNat - 1) / P.toNat ∧
      (∀ (j : Nat) (h : j < cs.length),
        cs[j] = (fw.drop (j * P.toNat)).take P.toNat) ∧
      (∀ (j : Nat) (h : j < cs.length),
        cs[j].length =
          if j + 1 < cs.length then P.toNat
          else fw.length - P.toNat * (cs.length - 1)) ∧
      cs.flatten = fw := by
  refine ⟨chunksTD P.toNat fw, chunks_eq_chunksTD fw P hP, ?_, ?_, ?_, ?_⟩
  · exact chunksTD_length P.toNat (by omega) fw.length fw le_rfl
  · intro j h
    exact chunksTD_getElem P.toNat (by omega) fw j h
  · intro j h
    have hget := chunksTD_getElem P.toNat (by omega) fw j h
    have hlen := chunksTD_length P.toNat (by omega) fw.length fw le_rfl
    have hbounds := ceil_count_bounds fw.length P.toNat (by omega) hL
    rw [hget]
    rw [List.length_take, List.length_drop]
    rw [hlen] at h ⊢
    set c := (fw.length + P.toNat - 1) / P.toNat with hc
    obtain ⟨hb1, hb2, hb3⟩ := hbounds
    by_cases hj : j + 1 < c
    · rw [if_pos hj]
      have hmono : (j + 1) * P.toNat ≤ (c - 1) * P.toNat :=
        Nat.mul_le_mul_right _ (by omega)
      have h2 : (j + 1) * P.toNat = j * P.toNat + P.toNat := by ring
      omega
    · rw [if_neg hj]
      have hj' : j = c - 1 := by omega
      subst hj'
      rw [Nat.mul_comm P.toNat (c - 1)]
      have hPle : P.toNat ≤ c * P.toNat :=
        Nat.le_mul_of_pos_left _ (by omega)
      have hY : c * P.toNat = (c - 1) * P.toNat + P.toNat := by
        rw [Nat.sub_mul, Nat.one_mul]
        omega
      omega
  · exact chunksTD_flatten P.toNat (by omega) fw.length fw le_rfl

/-- Concrete instance of C1: image `[1,2,3,4,5]`, packet size `2` gives
three chunks `[[1,2],[3,4],[5]]` whose concatenation is the image. -/
theorem flashFirmware_chunking_spec_witness :
    (1 : Int) ≤ 2 ∧ 0 < ([1, 2, 3, 4, 5] : List Int).length ∧
    chunks ([1, 2, 3, 4, 5] : List Int) 2 = some [[1, 2], [3, 4], [5]] ∧
    chunks ([1, 2, 3, 4, 5] : List Int) 2 ≠ none := by
  refine ⟨by norm_num, by norm_num, by decide, ?_⟩
  obtain ⟨cs, h1, -, -, -, -⟩ :=
    flashFirmware_chunking_spec [1, 2, 3, 4, 5] 2 (by norm_num) (by norm_num)
  simp [h1]

/-! ## Axis sample decoder (`DeviceData`)

Source (`DeviceSensorEvents.ts`): class `DeviceData` with fields
`_axisX`, `_axisY`, `_axisZ`, methods `calculateTotalAcceleration` and
`set_fffx`, plus the characteristic UUID constants. -/

def CHAR_X_UUID : String := "FFF1"

def CHAR_Y_UUID : String := "FFF2"

def CHAR_Z_UUID : String := "FFF3"

/-- The per-device axis sample (class `DeviceData`). -/
structure DeviceData where
  _axisX : Nat
  _axisY : Nat
  _axisZ : Nat
deriving DecidableEq, Repr

/-- `Math.round (Math.sqrt n)` for a natural `n`, in exact arithmetic:
`(⌊√(4n)⌋ + 1) / 2` equals `⌊√n + 1/2⌋` (proved below); for an integer
argument the square root is never exactly halfway between two integers, so
the half-up tie rule of `Math.round` is never exercised. -/
def jsRoundSqrt (n : Nat) : Nat := (Nat.sqrt (4 * n) + 1) / 2

/-- `DeviceData.calculateTotalAcceleration`: `min(round(√(x²+y²+z²)), 5)`. -/
def DeviceData.calculateTotalAcceleration (d : DeviceData) : Nat :=
  min (jsRoundSqrt (d._axisX ^ 2 + d._axisY ^ 2 + d._axisZ ^ 2)) 5

/-- `DeviceData.set_fffx`: update the axis named by the characteristic UUID,
throwing (modelled as `Except.error`) on an unknown property name. -/
def DeviceData.set_fffx (d : DeviceData) (propName : String) (value : Nat) :
    Except String DeviceData :=
  if propName = CHAR_X_UUID then .ok { d with _axisX := value }
  else if propName = CHAR_Y_UUID then .ok { d with _axisY := value }
  else if propName = CHAR_Z_UUID then .ok { d with _axisZ := value }
  else .error ("Property " ++ propName ++ " does not exist on DeviceData.")

/-- The integer-only rounding `(⌊√(4n)⌋+1)/2` is the half-up rounding of the
real square root. -/
theorem jsRoundSqrt_eq_round_sqrt (n : Nat) :
    (jsRoundSqrt n : Int) = round (Real.sqrt n) := by
  have hsq : Real.sqrt ((4 * n : Nat) : ℝ) = 2 * Real.sqrt n := by
    push_cast
    rw [show ((4 : ℝ) * n) = 2 ^ 2 * n by norm_num,
        Real.sqrt_mul (by positivity), Real.sqrt_sq (by norm_num)]
  have hA : ((Nat.sqrt (4 * n) : Nat) : ℝ) ≤ 2 * Real.sqrt n := by
    rw [← hsq]; exact Real.nat_sqrt_le_real_sqrt
  have hB : 2 * Real.sqrt n < ((Nat.sqrt (4 * n) : Nat) : ℝ) + 1 := by
    rw [← hsq]; exact Real.real_sqrt_lt_nat_sqrt_succ
  simp only [jsRoundSqrt]
  set s := Nat.sqrt (4 * n) with hs
  set k := (s + 1) / 2 with hk
  have hk1 : s ≤ 2 * k := by omega
  have hk2 : 2 * k ≤ s + 1 := by omega
  have hk1R : (s : ℝ) ≤ 2 * (k : ℝ) := by exact_mod_cast hk1
  have hk2R : 2 * (k : ℝ) ≤ (s : ℝ) + 1 := by exact_mod_cast hk2
  have hfloor : round (Real.sqrt n) = (k : Int) := by
    rw [round_eq]
    apply Int.floor_eq_iff.mpr
    constructor
    · push_cast
      linarith
    · push_cast
      linarith
  rw [hfloor]

/-- C2: for every axis sample `(x, y, z)` with components in `[0, 255]`,
the magnitude returned by `calculateTotalAcceleration` equals
`min(round(√(x²+y²+z²)), 5)` with `round` the half-up rounding of the real
square root; it reads nothing but the current sample (it is a pure function
of the three fields). -/
theorem calculateTotalAcceleration_spec (x y z : Nat)
    (hx : x ≤ 255) (hy : y ≤ 255) (hz : z ≤ 255) :
    ((DeviceData.mk x y z).calculateTotalAcceleration : Int) =
      min (round (Real.sqrt ((x : ℝ) ^ 2 + (y : ℝ) ^ 2 + (z : ℝ) ^ 2))) 5 := by
  have h : ((x ^ 2 + y ^ 2 + z ^ 2 : Nat) : ℝ) =
      (x : ℝ) ^ 2 + (y : ℝ) ^ 2 + (z : ℝ) ^ 2 := by push_cast; ring
  unfold DeviceData.calculateTotalAcceleration
  rw [Nat.cast_min, jsRoundSqrt_eq_round_sqrt, ← h]
  norm_num

/-- Concrete instance of C2 at the spec's scenario `x=3, y=4, z=0`:
the magnitude is `min(round(5), 5) = 5`. -/
theorem calculateTotalAcceleration_spec_witness :
    3 ≤ 255 ∧ 4 ≤ 255 ∧ 0 ≤ 255 ∧
    (DeviceData.mk 3 4 0).calculateTotalAcceleration = 5 ∧
    ((DeviceData.mk 3 4 0).calculateTotalAcceleration : Int) =
      min (round (Real.sqrt (((3 : Nat) : ℝ) ^ 2 + ((4 : Nat) : ℝ) ^ 2 +
        ((0 : Nat) : ℝ) ^ 2))) 5 := by
  refine ⟨by norm_num, by norm_num, by norm_num,
    by norm_num [DeviceData.calculateTotalAcceleration, jsRoundSqrt], ?_⟩
  exact calculateTotalAcceleration_spec 3 4 0 (by norm_num) (by norm_num)
    (by norm_num)

/-- C7: `set_fffx` updates exactly the axis field matching the tag (one of
the three fixed characteristic UUIDs), leaves the other two fields unchanged,
and throws an error for every tag outside the three fixed tags (never a
silent no-op). -/
theorem set_fffx_spec (tag : String) (v : Nat) (d : DeviceData) :
    (tag = CHAR_X_UUID →
      d.set_fffx tag v = .ok ⟨v, d._axisY, d._axisZ⟩) ∧
    (tag = CHAR_Y_UUID →
      d.set_fffx tag v = .ok ⟨d._axisX, v, d._axisZ⟩) ∧
    (tag = CHAR_Z_UUID →
      d.set_fffx tag v = .ok ⟨d._axisX, d._axisY, v⟩) ∧
    (tag ≠ CHAR_X_UUID → tag ≠ CHAR_Y_UUID → tag ≠ CHAR_Z_UUID →
      d.set_fffx tag v =
        .error ("Property " ++ tag ++ " does not exist on DeviceData.")) := by
  refine ⟨?_, ?_, ?_, ?_⟩
  · intro h
    subst h
    rfl
  · intro h
    subst h
    rfl
  · intro h
    subst h
    rfl
  · intro h1 h2 h3
    simp [DeviceData.set_fffx, h1, h2, h3]

/-- Concrete instances of C7: a valid tag updates only its field; an unknown
tag produces the error. -/
theorem set_fffx_spec_witness :
    (DeviceData.mk 1 2 3).set_fffx "FFF1" 9 = Except.ok (DeviceData.mk 9 2 3) ∧
    (DeviceData.mk 1 2 3).set_fffx "ABCD" 9 =
      Except.error "Property ABCD does not exist on DeviceData." := by
  constructor
  · exact (set_fffx_spec "FFF1" 9 (DeviceData.mk 1 2 3)).1 rfl
  · have h := (set_fffx_spec "ABCD" 9 (DeviceData.mk 1 2 3)).2.2.2
      (by decide) (by decide) (by decide)
    rw [h]
    rfl

/-! ## Sensor event bus and the notification callback of `connect`

Source: class `DeviceSensorEvents` (`emit` is a no-op for a null device,
otherwise it delivers `(device, percent)` to the listeners of that device id),
and the callback registered with the Z-axis subscription in
`KiirooControl.connect` (lines 343–358), which holds the duplicate
suppression state `this.acceleration` (initialised to `0` in the
constructor and not reset on connect). -/

/-- A BLE peripheral handle (`IDevice`): only the id matters here. -/
structure Device where
  id : String
deriving DecidableEq, Repr

/-- `DeviceSensorEvents.emit`: the event payloads delivered to the bus for
one publish — nothing for a null device, one `(deviceId, percent)` event
otherwise. -/
def DeviceSensorEvents.emit (device : Option Device) (percent : Nat) :
    List (String × Nat) :=
  match device with
  | none => []
  | some d => [(d.id, percent)]

/-- One invocation of the notification callback set up in `connect`:
update the axis named by the notification's characteristic (a throwing
`set_fffx` aborts the callback), recompute the magnitude, and publish
`min(magnitude·20, 100)` only when the magnitude differs from the stored
`acceleration`. State: the current `DeviceData` and the `acceleration`
field. -/
def notificationStep (device : Option Device) (d : DeviceData) (acc : Nat)
    (tag : String) (v : Nat) :
    Except String ((DeviceData × Nat) × List (String × Nat)) :=
  match d.set_fffx tag v with
  | .error e => .error e
  | .ok d1 =>
      if acc ≠ d1.calculateTotalAcceleration then
        .ok ((d1, d1.calculateTotalAcceleration),
          DeviceSensorEvents.emit device
            (min (d1.calculateTotalAcceleration * 20) 100))
      else .ok ((d1, acc), [])

/-- Run the callback over a whole sequence of axis notifications,
collecting the published events in order. -/
def runNotifications (device : Option Device) :
    DeviceData → Nat → List (String × Nat) →
      Except String ((DeviceData × Nat) × List (String × Nat))
  | d, acc, [] => .ok ((d, acc), [])
  | d, acc, (tag, v) :: rest =>
      match notificationStep device d acc tag v with
      | .error e => .error e
      | .ok ((d1, acc1), out) =>
          match runNotifications device d1 acc1 rest with
          | .error e => .error e
          | .ok (st2, outs) => .ok (st2, out ++ outs)

/-- The magnitude is capped at 5. -/
theorem calculateTotalAcceleration_le_five (d : DeviceData) :
    d.calculateTotalAcceleration ≤ 5 :=
  min_le_right _ 5

/-- Duplicate suppression invariant: prefixing the percent encoding of the
stored `acceleration`, the published percent values form a chain with no two
consecutive elements equal; the final stored acceleration stays ≤ 5. -/
theorem runNotifications_dedup (dev : Device) :
    ∀ (l : List (String × Nat)) (d : DeviceData) (acc : Nat), acc ≤ 5 →
      ∀ (st : DeviceData × Nat) (outs : List (String × Nat)),
        runNotifications (some dev) d acc l = .ok (st, outs) →
        List.Chain' (· ≠ ·) (min (acc * 20) 100 :: outs.map Prod.snd) ∧
          st.2 ≤ 5 := by
  intro l
  induction l with
  | nil =>
      intro d acc hacc st outs h
      simp only [runNotifications, Except.ok.injEq, Prod.mk.injEq] at h
      obtain ⟨h1, h2⟩ := h
      subst h1
      subst h2
      exact ⟨List.chain'_singleton _, hacc⟩
  | cons tv rest ih =>
      intro d acc hacc st outs h
      obtain ⟨tag, v⟩ := tv
      simp only [runNotifications] at h
      split at h
      · exact absurd h (by simp)
      · rename_i d1 acc1 out hstep
        split at h
        · exact absurd h (by simp)
        · rename_i st2 outs2 hrun
          simp only [Except.ok.injEq, Prod.mk.injEq] at h
          obtain ⟨h1, h2⟩ := h
          subst h1
          subst h2
          simp only [notificationStep] at hstep
          split at hstep
          · exact absurd hstep (by simp)
          · rename_i dnew hset
            split at hstep
            · rename_i hne
              simp only [Except.ok.injEq, Prod.mk.injEq] at hstep
              obtain ⟨⟨hd1, hacc1⟩, hout⟩ := hstep
              subst hd1
              subst hacc1
              subst hout
              have hm5 := calculateTotalAcceleration_le_five dnew
              have hih := ih dnew dnew.calculateTotalAcceleration hm5 st2 outs2
                hrun
              refine ⟨?_, hih.2⟩
              simp only [DeviceSensorEvents.emit, List.cons_append,
                List.nil_append, List.map_cons]
              refine List.chain'_cons.mpr ⟨?_, hih.1⟩
              simp only [ne_eq] at hne ⊢
              omega
            · rename_i hne
              simp only [Except.ok.injEq, Prod.mk.injEq] at hstep
              obtain ⟨⟨hd1, hacc1⟩, hout⟩ := hstep
              subst hd1
              subst hacc1
              subst hout
              have hih := ih dnew acc hacc st2 outs2 hrun
              simpa using hih

/-- When the axis update succeeds, the callback publishes exactly
`min(magnitude·20, 100)`, and only when the magnitude differs from the
stored `acceleration`. -/
theorem notificationStep_ok (device : Option Device) (d : DeviceData)
    (acc : Nat) (tag : String) (v : Nat) (d1 : DeviceData)
    (hset : d.set_fffx tag v = .ok d1) :
    notificationStep device d acc tag v =
      if acc ≠ d1.calculateTotalAcceleration then
        .ok ((d1, d1.calculateTotalAcceleration),
          DeviceSensorEvents.emit device
            (min (d1.calculateTotalAcceleration * 20) 100))
      else .ok ((d1, acc), []) := by
  simp [notificationStep, hset]

/-- C6 (amended): for any axis-notification sequence processed by a
connected device's callback starting from dedup state `acc ≤ 5`:
(1) the published percent values never repeat consecutively, even against
the percent encoding of the starting `acceleration` state; (2) a
notification publishes exactly `min(magnitude·20, 100)` and publishes iff
the new magnitude differs from the stored `acceleration` — so the first
value is delivered only when its magnitude differs from the initial
`acceleration` of 0 (a first zero-magnitude value is suppressed); and
(3) `emit` for a null device delivers nothing. -/
theorem sensor_events_spec (dev : Device) (d : DeviceData) (acc : Nat)
    (l : List (String × Nat)) (hacc : acc ≤ 5) (st : DeviceData × Nat)
    (outs : List (String × Nat))
    (h : runNotifications (some dev) d acc l = .ok (st, outs)) :
    List.Chain' (· ≠ ·) (min (acc * 20) 100 :: outs.map Prod.snd) ∧
    (∀ (d0 d1 : DeviceData) (acc0 : Nat) (tag : String) (v : Nat),
      d0.set_fffx tag v = .ok d1 →
      notificationStep (some dev) d0 acc0 tag v =
        if acc0 ≠ d1.calculateTotalAcceleration then
          .ok ((d1, d1.calculateTotalAcceleration),
            [(dev.id, min (d1.calculateTotalAcceleration * 20) 100)])
        else .ok ((d1, acc0), [])) ∧
    (∀ percent, DeviceSensorEvents.emit none percent = []) := by
  refine ⟨(runNotifications_dedup dev l d acc hacc st outs h).1, ?_,
    fun _ => rfl⟩
  intro d0 d1 acc0 tag v hset
  rw [notificationStep_ok (some dev) d0 acc0 tag v d1 hset]
  rfl

/-- C6 counterexample to "the first value is always delivered": starting
from the initial state (constructor sets `acceleration = 0`), a first
notification whose magnitude is `0` (here: X set to `0`) publishes nothing
— the subscribers receive no first value. -/
theorem sensor_first_value_cex :
    runNotifications (some (Device.mk "dev1")) (DeviceData.mk 0 0 0) 0
      [(CHAR_X_UUID, 0)] = .ok ((DeviceData.mk 0 0 0, 0), []) := by
  have h1 : (DeviceData.mk 0 0 0).set_fffx CHAR_X_UUID 0 =
      .ok (DeviceData.mk 0 0 0) := rfl
  have h2 : (DeviceData.mk 0 0 0).calculateTotalAcceleration = 0 := by
    norm_num [DeviceData.calculateTotalAcceleration, jsRoundSqrt]
  simp [runNotifications, notificationStep, h1, h2]

/-- Concrete instance of the amended C6: notifications X←3 then Y←4 from
the initial state publish 60 then 100, a chain with no consecutive
repeats. -/
theorem sensor_events_spec_witness :
    (0 : Nat) ≤ 5 ∧
    runNotifications (some (Device.mk "dev1")) (DeviceData.mk 0 0 0) 0
      [(CHAR_X_UUID, 3), (CHAR_Y_UUID, 4)] =
      .ok ((DeviceData.mk 3 4 0, 5), [("dev1", 60), ("dev1", 100)]) ∧
    List.Chain' (· ≠ ·)
      (min (0 * 20) 100 ::
        List.map Prod.snd [("dev1", 60), ("dev1", 100)]) := by
  have h1 : (DeviceData.mk 0 0 0).set_fffx CHAR_X_UUID 3 =
      .ok (DeviceData.mk 3 0 0) := rfl
  have h2 : (DeviceData.mk 3 0 0).calculateTotalAcceleration = 3 := by
    norm_num [DeviceData.calculateTotalAcceleration, jsRoundSqrt]
  have h3 : (DeviceData.mk 3 0 0).set_fffx CHAR_Y_UUID 4 =
      .ok (DeviceData.mk 3 4 0) := rfl
  have h4 : (DeviceData.mk 3 4 0).calculateTotalAcceleration = 5 := by
    norm_num [DeviceData.calculateTotalAcceleration, jsRoundSqrt]
  have hrun : runNotifications (some (Device.mk "dev1")) (DeviceData.mk 0 0 0)
      0 [(CHAR_X_UUID, 3), (CHAR_Y_UUID, 4)] =
      .ok ((DeviceData.mk 3 4 0, 5), [("dev1", 60), ("dev1", 100)]) := by
    simp [runNotifications, notificationStep, h1, h2, h3, h4,
      DeviceSensorEvents.emit]
  exact ⟨by norm_num, hrun,
    (sensor_events_spec (Device.mk "dev1") (DeviceData.mk 0 0 0) 0
      [(CHAR_X_UUID, 3), (CHAR_Y_UUID, 4)] (by norm_num)
      (DeviceData.mk 3 4 0, 5) [("dev1", 60), ("dev1", 100)] hrun).1⟩

/-! ## OTA transfer engine (`KiirooControl.flashFirmware`)

Source (`DeviceSensorEvents.ts`, lines 459–531). The model records the
ordered list of transport interactions (writes, the control read, progress
callbacks). Modelling choices: connectivity is a session-constant `ready`
flag (`this.device` set and `isConnected()` true — the code re-queries it
before each write, which is invariant here); the MTU the transport returns
from `requestMTU` is an input (`mtuResult`); transport writes succeed; the
timed waits and `console.debug` calls produce no events; under constant
connectivity the post-reboot reconnect check reads `isConnected()` and does
nothing. The chunking loop is the fuel-indexed `chunkLoop`; `none` for the
whole run means that loop never finished (non-positive packet size with
non-empty firmware). -/

def OTA_DATA_UUID : String := "1701"

def OTA_CONTROL_UUID : String := "1702"

def DEFAULT_MTU_SIZE : Int := 23

def IOS_MTU_SIZE : Int := 185

def deviceNotInitMsg : String := "The device should be connected first."

/-- Target platform and its OS version (`Platform.OS` / `Platform.Version`,
already parsed to a number as in the source's `parseFloat`). -/
inductive Platform where
  | ios (version : Int)
  | android (version : Int)
deriving DecidableEq, Repr

def Platform.version : Platform → Int
  | .ios v => v
  | .android v => v

/-- One observable transport interaction of `flashFirmware`. -/
inductive OTAEvent where
  | write (uuid : String) (data : List Int)
  | writeNoResp (uuid : String) (data : List Int)
  | read (uuid : String)
  | progress (pct : Nat)
deriving DecidableEq, Repr

/-- The MTU used: iOS skips negotiation and uses the fixed 185; Android uses
whatever `BleManager.requestMTU` returned. -/
def mtuSize (platform : Platform) (mtuResult : Int) : Int :=
  match platform with
  | .ios _ => IOS_MTU_SIZE
  | .android _ => mtuResult

/-- `packetSize = mtuSize - 3`. -/
def packetSizeOf (platform : Platform) (mtuResult : Int) : Int :=
  mtuSize platform mtuResult - 3

/-- Second header byte: `versionNumber >= 34 ? 1 : 0`. -/
def transferModeFlag (platform : Platform) : Int :=
  if 34 ≤ platform.version then 1 else 0

/-- `Math.round((i / total) * 100)` in exact arithmetic (round half up). -/
def jsRoundPct (i total : Nat) : Nat := (2 * (i * 100) + total) / (2 * total)

/-- The final `[0x04]` control write: a plain characteristic write on iOS,
`writeWithoutResponse` on Android. -/
def finalizeEvent (platform : Platform) : OTAEvent :=
  match platform with
  | .ios _ => .write OTA_CONTROL_UUID [4]
  | .android _ => .writeNoResp OTA_CONTROL_UUID [4]

/-- Model of `KiirooControl.flashFirmware`: connection precondition, then
header `[packetSize, flag]` on the OTA data channel, start byte `0x01` on
the control channel, one control read, the chunk writes each followed by a
progress callback `round(i/total*100)`, and the final `0x04`. -/
def flashFirmware (ready : Bool) (platform : Platform) (mtuResult : Int)
    (fw : List Int) : Option (List OTAEvent × Except String Unit) :=
  if ready then
    match chunks fw (packetSizeOf platform mtuResult) with
    | none => none
    | some cs =>
        some ([OTAEvent.write OTA_DATA_UUID
                 [packetSizeOf platform mtuResult, transferModeFlag platform],
               OTAEvent.write OTA_CONTROL_UUID [1],
               OTAEvent.read OTA_CONTROL_UUID] ++
          (cs.enum.map fun ic =>
            [OTAEvent.write OTA_DATA_UUID ic.2,
             OTAEvent.progress (jsRoundPct ic.1 cs.length)]).flatten ++
          [finalizeEvent platform], .ok ())
  else some ([], .error deviceNotInitMsg)

/-- The progress-callback values of a trace, in order. -/
def progressValues (tr : List OTAEvent) : List Nat :=
  tr.filterMap fun e =>
    match e with
    | .progress p => some p
    | _ => none

theorem progressValues_append (a b : List OTAEvent) :
    progressValues (a ++ b) = progressValues a ++ progressValues b :=
  List.filterMap_append ..

/-- The chunk-write/progress body of the trace projects to exactly one
progress value per chunk. -/
theorem progressValues_body (ps : List (Nat × List Int)) (total : Nat) :
    progressValues ((ps.map fun ic =>
        [OTAEvent.write OTA_DATA_UUID ic.2,
         OTAEvent.progress (jsRoundPct ic.1 total)]).flatten) =
      ps.map fun ic => jsRoundPct ic.1 total := by
  induction ps with
  | nil => rfl
  | cons ic rest ih =>
      simp only [List.map_cons, List.flatten_cons, progressValues_append, ih]
      rfl

/-- `jsRoundPct` is monotone in the chunk index. -/
theorem jsRoundPct_mono (total : Nat) {i j : Nat} (hij : i ≤ j) :
    jsRoundPct i total ≤ jsRoundPct j total := by
  unfold jsRoundPct
  exact Nat.div_le_div_right (by omega)

/-- The progress projection of a full transfer trace whose prefix and suffix
contain no progress events. -/
theorem progressValues_trace (pre : List OTAEvent) (cs : List (List Int))
    (suf : List OTAEvent)
    (hpre : progressValues pre = []) (hsuf : progressValues suf = []) :
    progressValues (pre ++ (cs.enum.map fun ic =>
        [OTAEvent.write OTA_DATA_UUID ic.2,
         OTAEvent.progress (jsRoundPct ic.1 cs.length)]).flatten ++ suf) =
      ((List.range cs.length).map fun i => jsRoundPct i cs.length) := by
  rw [progressValues_append, progressValues_append, progressValues_body,
      hpre, hsuf, List.nil_append, List.append_nil, ← List.enum_map_fst,
      List.map_map]
  rfl

/-- The reported progress values are non-decreasing. -/
theorem chain_le_range_map (total : Nat) :
    List.Chain' (· ≤ ·)
      ((List.range total).map fun i => jsRoundPct i total) := by
  apply List.Pairwise.chain'
  refine List.pairwise_map.mpr ?_
  exact (List.pairwise_lt_range total).imp
    fun hij => jsRoundPct_mono total (Nat.le_of_lt hij)

/-- C3: during one `flashFirmware` transfer (connected, Android, usable
MTU ≥ 4), the progress callback fires exactly once after each chunk write
with value `round(i/totalChunks·100)` for the completed 0-based index `i`
(visible in the trace shape), so the reported values are
`[round(i/total·100) | i ∈ [0, total))`, a non-decreasing list. -/
theorem flashFirmware_progress_spec (p : Platform) (mtu : Int)
    (fw : List Int) (hmtu : 4 ≤ mtuSize p mtu) :
    ∃ (cs : List (List Int)) (tr : List OTAEvent),
      chunks fw (packetSizeOf p mtu) = some cs ∧
      flashFirmware true p mtu fw = some (tr, .ok ()) ∧
      tr = [OTAEvent.write OTA_DATA_UUID
              [packetSizeOf p mtu, transferModeFlag p],
            OTAEvent.write OTA_CONTROL_UUID [1],
            OTAEvent.read OTA_CONTROL_UUID] ++
        (cs.enum.map fun ic =>
          [OTAEvent.write OTA_DATA_UUID ic.2,
           OTAEvent.progress (jsRoundPct ic.1 cs.length)]).flatten ++
        [finalizeEvent p] ∧
      progressValues tr =
        ((List.range cs.length).map fun i => jsRoundPct i cs.length) ∧
      List.Chain' (· ≤ ·) (progressValues tr) := by
  have hP : (1 : Int) ≤ packetSizeOf p mtu := by
    simp only [packetSizeOf]
    omega
  have hcs := chunks_eq_chunksTD fw (packetSizeOf p mtu) hP
  refine ⟨chunksTD (packetSizeOf p mtu).toNat fw, _,
    hcs, ?_, rfl, ?_, ?_⟩
  · simp [flashFirmware, hcs]
  · exact progressValues_trace _ _ _ (by rfl) (by cases p <;> rfl)
  · rw [progressValues_trace _ _ _ (by rfl) (by cases p <;> rfl)]
    exact chain_le_range_map _

set_option maxRecDepth 8000 in
/-- Concrete instance of C3, the spec's scenario: a 500-byte image with
packet size 250 (MTU 253) gives two 250-byte chunks; the callback receives
`0` then `50` and never `100`. -/
theorem flashFirmware_progress_spec_witness :
    (4 : Int) ≤ mtuSize (Platform.android 33) 253 ∧
    flashFirmware true (Platform.android 33) 253 (List.replicate 500 0) =
      some ([OTAEvent.write OTA_DATA_UUID [250, 0],
             OTAEvent.write OTA_CONTROL_UUID [1],
             OTAEvent.read OTA_CONTROL_UUID,
             OTAEvent.write OTA_DATA_UUID (List.replicate 250 (0 : Int)),
             OTAEvent.progress 0,
             OTAEvent.write OTA_DATA_UUID (List.replicate 250 (0 : Int)),
             OTAEvent.progress 50,
             OTAEvent.writeNoResp OTA_CONTROL_UUID [4]], .ok ()) ∧
    progressValues
        [OTAEvent.write OTA_DATA_UUID [250, 0],
         OTAEvent.write OTA_CONTROL_UUID [1],
         OTAEvent.read OTA_CONTROL_UUID,
         OTAEvent.write OTA_DATA_UUID (List.replicate 250 (0 : Int)),
         OTAEvent.progress 0,
         OTAEvent.write OTA_DATA_UUID (List.replicate 250 (0 : Int)),
         OTAEvent.progress 50,
         OTAEvent.writeNoResp OTA_CONTROL_UUID [4]] = [0, 50] ∧
    (100 : Nat) ∉ ([0, 50] : List Nat) ∧
    List.Chain' (· ≤ ·) ([0, 50] : List Nat) := by
  obtain ⟨cs, tr, hcs, htr, hshape, hprog, hchain⟩ :=
    flashFirmware_progress_spec (Platform.android 33) 253
      (List.replicate 500 0) (by norm_num [mtuSize])
  have heval : flashFirmware true (Platform.android 33) 253
      (List.replicate 500 0) =
      some ([OTAEvent.write OTA_DATA_UUID [250, 0],
             OTAEvent.write OTA_CONTROL_UUID [1],
             OTAEvent.read OTA_CONTROL_UUID,
             OTAEvent.write OTA_DATA_UUID (List.replicate 250 (0 : Int)),
             OTAEvent.progress 0,
             OTAEvent.write OTA_DATA_UUID (List.replicate 250 (0 : Int)),
             OTAEvent.progress 50,
             OTAEvent.writeNoResp OTA_CONTROL_UUID [4]], .ok ()) := by rfl
  have htr2 := htr
  rw [heval] at htr2
  simp only [Option.some.injEq, Prod.mk.injEq] at htr2
  obtain ⟨htr3, -⟩ := htr2
  subst htr3
  refine ⟨by norm_num [mtuSize], heval, by decide, by decide, ?_⟩
  exact hchain

/-- C4 counterexample: with negotiated MTU 3 (packet size 0) and a
non-empty image, `flashFirmware` does not fail with any error — the chunking
loop simply never terminates (`none`), still unfinished after e.g. 1000
iterations; no `InvalidMTU` failure exists in the code. -/
theorem flashFirmware_invalidMTU_cex :
    flashFirmware true (Platform.android 33) 3 [0] = none ∧
    chunkLoop ([0] : List Int) (packetSizeOf (Platform.android 33) 3)
      1000 0 = none := by
  constructor
  · rfl
  · exact chunkLoop_none_of_nonpos [0] _ (by decide) (by decide) 1000 0 le_rfl

/-- C4 (amended): the packet size used for chunking always equals the
negotiated MTU minus 3, but no validation exists: for every negotiated MTU
≤ 3 and non-empty firmware the chunking loop never terminates for any
amount of fuel (no `InvalidMTU` — or any — error is raised, and no write is
reached). -/
theorem flashFirmware_mtu_spec (v mtu : Int) (fw : List Int)
    (hmtu : mtu ≤ 3) (hfw : 0 < fw.length) :
    (∀ (p : Platform) (m : Int), packetSizeOf p m = mtuSize p m - 3) ∧
    (∀ fuel : Nat,
      chunkLoop fw (packetSizeOf (Platform.android v) mtu) fuel 0 = none) ∧
    flashFirmware true (Platform.android v) mtu fw = none := by
  have hnp : packetSizeOf (Platform.android v) mtu ≤ 0 := by
    simp only [packetSizeOf, mtuSize]
    omega
  have hloop : ∀ fuel : Nat,
      chunkLoop fw (packetSizeOf (Platform.android v) mtu) fuel 0 = none :=
    fun fuel => chunkLoop_none_of_nonpos fw _ hnp hfw fuel 0 le_rfl
  refine ⟨fun p m => rfl, hloop, ?_⟩
  simp only [flashFirmware, if_true, chunks, hloop (fw.length + 1)]

/-- Concrete instance of the amended C4 at MTU 3 and image `[0]`. -/
theorem flashFirmware_mtu_spec_witness :
    (3 : Int) ≤ 3 ∧ 0 < ([0] : List Int).length ∧
    chunkLoop ([0] : List Int) (packetSizeOf (Platform.android 33) 3)
      7 0 = none ∧
    flashFirmware true (Platform.android 33) 3 [0] = none := by
  obtain ⟨-, h2, h3⟩ := flashFirmware_mtu_spec 33 3 [0] le_rfl (by decide)
  exact ⟨le_rfl, by decide, h2 7, h3⟩

/-- C5 counterexample: on a connected facade an *empty* firmware image is
not rejected — `flashFirmware` runs to completion, issuing the header,
start, control-read and finalize writes (just zero chunk writes), instead of
failing with the device-not-ready rejection. -/
theorem flashFirmware_empty_cex :
    flashFirmware true (Platform.android 33) 252 [] =
      some ([OTAEvent.write OTA_DATA_UUID [249, 0],
             OTAEvent.write OTA_CONTROL_UUID [1],
             OTAEvent.read OTA_CONTROL_UUID,
             OTAEvent.writeNoResp OTA_CONTROL_UUID [4]], .ok ()) := by
  rfl

/-- C5 (amended): without an active verified connection `flashFirmware`
fails with the device-not-ready rejection before any transport event; but an
empty firmware image is NOT rejected — the transfer proceeds (header, start
byte, control read, finalize) with zero chunk writes and succeeds. -/
theorem flashFirmware_preconditions_spec (platform : Platform)
    (mtuResult : Int) (fw : List Int) :
    flashFirmware false platform mtuResult fw =
      some ([], .error deviceNotInitMsg) ∧
    (∀ (p2 : Platform) (m : Int),
      flashFirmware true p2 m [] =
        some ([OTAEvent.write OTA_DATA_UUID
                 [packetSizeOf p2 m, transferModeFlag p2],
               OTAEvent.write OTA_CONTROL_UUID [1],
               OTAEvent.read OTA_CONTROL_UUID,
               finalizeEvent p2], .ok ())) :=
  ⟨rfl, fun _ _ => rfl⟩

/-- C8: invoked on a facade with no active connection, `flashFirmware`
rejects with exactly the device-not-ready message and the transport trace is
empty — no characteristic write (or any other interaction) is issued. -/
theorem flashFirmware_disconnected_spec (platform : Platform)
    (mtuResult : Int) (fw : List Int) :
    flashFirmware false platform mtuResult fw =
      some ([], .error "The device should be connected first.") := rfl

/-! ## `getBattery` in the two package variants

Source: `KiirooControl.readChar`/`getBattery` in
`react_native/src/DeviceSensorEvents.ts` (lines 254–263, 440–443: no
`try`/`catch`, the read's rejection propagates) and the React variant listed
in `react/README.md` (lines 522–539: the read sits in a `try` block whose
`catch` logs and falls through to `return -1`; `getUint8(0)` on an empty
DataView also throws inside that `try`). The transport read's outcome is an
input. -/

/-- `KiirooControl.readChar` (React Native): reject when there is no
device/connection, otherwise return the transport read's outcome. -/
def readChar (ready : Bool) (transport : Except String (List Int)) :
    Except String (List Int) :=
  if ready then transport else .error deviceNotInitMsg

/-- React Native `getBattery`: `(await this.readChar(...))[0]`, no catch;
indexing an empty array gives JS `undefined`, modelled as `none`. -/
def getBattery (ready : Bool) (transport : Except String (List Int)) :
    Except String (Option Int) :=
  (readChar ready transport).map List.head?

/-- React (web) `getBattery` from `react/README.md`: connection check, then
`try { readValue(); return getUint8(0) } catch { log } return -1`. -/
def getBattery_react (ready : Bool) (transport : Except String (List Int)) :
    Except String Int :=
  if ready then
    match transport with
    | .error _ => .ok (-1)
    | .ok data =>
        match data.head? with
        | some b => .ok b
        | none => .ok (-1)
  else .error deviceNotInitMsg

/-- C9 counterexample: in the React (web) variant, a failing characteristic
read during `getBattery` on a connected facade is swallowed and the
substitute value `-1` is returned instead of the error. -/
theorem getBattery_react_swallows_cex :
    getBattery_react true (.error "ReadFailed") = .ok (-1) := rfl

/-- C9 (amended): the React Native `getBattery` propagates a failing read
to the caller unchanged (and rejects when disconnected), but the React
(web) variant catches a failing read and returns `-1` as a substitute
value; both variants do fail fast with the device-not-ready rejection when
disconnected. -/
theorem getBattery_error_spec (e : String)
    (transport : Except String (List Int)) :
    getBattery true (.error e) = .error e ∧
    getBattery_react true (.error e) = .ok (-1) ∧
    getBattery false transport = .error deviceNotInitMsg ∧
    getBattery_react false transport = .error deviceNotInitMsg :=
  ⟨rfl, rfl, rfl, rfl⟩

/-! ## The notification-callback table of `BleManagerSensor`

Source: `react_native/src/BleManagerSensor.ts`. The module-level object
`callbacks` maps a device id to at most one `CallbackInfo`; `subscribe`
assigns (overwriting any previous entry for that id), `unsubscribe` deletes
(no-op when absent), and the single
`BleManagerDidUpdateValueForCharacteristic` listener looks up the
peripheral's entry and invokes its callback. `connect` subscribes X and Y
with no callback and Z with the dispatching callback, so the Z subscription's
callback is the device's only handler. `κ` is the (opaque) type of callback
functions; the table is the JS object, modelled as a partial map. -/

def KIIROO_CONTROL_SERVICE_UUID : String := "1400"

/-- One entry of the `callbacks` table. -/
structure CallbackInfo (κ : Type) where
  callback : Option κ
  service : String
  characteristic : String

/-- `BleManagerSensor.subscribe`: `callbacks[deviceId] = {callback, service,
characteristic}` (after `startNotification`, which is not observable in the
table). -/
def subscribe {κ : Type} (t : String → Option (CallbackInfo κ))
    (deviceId service characteristic : String) (callback : Option κ) :
    String → Option (CallbackInfo κ) :=
  fun k => if k = deviceId then some ⟨callback, service, characteristic⟩
    else t k

/-- `BleManagerSensor.unsubscribe`: return unchanged when the device has no
entry, otherwise delete the entry. -/
def unsubscribe {κ : Type} (t : String → Option (CallbackInfo κ))
    (deviceId : String) : String → Option (CallbackInfo κ) :=
  match t deviceId with
  | none => t
  | some _ => fun k => if k = deviceId then none else t k

/-- The `BleManagerDidUpdateValueForCharacteristic` listener: look up the
peripheral's entry, then its callback (returning without calling anything
when either is absent). -/
def handleNotification {κ : Type} (t : String → Option (CallbackInfo κ))
    (peripheral : String) : Option κ :=
  (t peripheral).bind fun info => info.callback

/-- The three axis subscriptions `KiirooControl.connect` makes: X and Y with
no callback, then Z with the dispatching callback `zcb`. -/
def connectSubscriptions {κ : Type} (t : String → Option (CallbackInfo κ))
    (deviceId : String) (zcb : κ) : String → Option (CallbackInfo κ) :=
  subscribe
    (subscribe
      (subscribe t deviceId KIIROO_CONTROL_SERVICE_UUID CHAR_X_UUID none)
      deviceId KIIROO_CONTROL_SERVICE_UUID CHAR_Y_UUID none)
    deviceId KIIROO_CONTROL_SERVICE_UUID CHAR_Z_UUID (some zcb)

/-- C10: the callback table holds at most one entry per device id —
`subscribe` overwrites the device's previous entry and touches no other
key; `unsubscribe` is a no-op when the device is absent, otherwise removes
exactly that device's entry; consequently after `connect`, the device's
single table entry is the Z-axis subscription, and every notification for
that device (whatever its characteristic) is handled by that one Z
callback. -/
theorem callback_table_spec {κ : Type} (t : String → Option (CallbackInfo κ))
    (d s s2 c c2 : String) (cb cb2 : Option κ) (zcb : κ) :
    (subscribe (subscribe t d s c cb) d s2 c2 cb2) d = some ⟨cb2, s2, c2⟩ ∧
    (∀ k, k ≠ d → subscribe t d s c cb k = t k) ∧
    (t d = none → unsubscribe t d = t) ∧
    (t d ≠ none → unsubscribe t d d = none) ∧
    (∀ k, k ≠ d → unsubscribe t d k = t k) ∧
    (connectSubscriptions t d zcb d =
      some ⟨some zcb, KIIROO_CONTROL_SERVICE_UUID, CHAR_Z_UUID⟩) ∧
    (handleNotification (connectSubscriptions t d zcb) d = some zcb) ∧
    (∀ k, k ≠ d → connectSubscriptions t d zcb k = t k) := by
  refine ⟨?_, ?_, ?_, ?_, ?_, ?_, ?_, ?_⟩
  · simp [subscribe]
  · intro k hk
    simp [subscribe, hk]
  · intro h
    simp [unsubscribe, h]
  · intro h
    cases hs : t d with
    | none => exact absurd hs h
    | some info => simp [unsubscribe, hs]
  · intro k hk
    cases hs : t d with
    | none => simp [unsubscribe, hs]
    | some info => simp [unsubscribe, hs, hk]
  · simp [connectSubscriptions, subscribe]
  · simp [handleNotification, connectSubscriptions, subscribe]
  · intro k hk
    simp [connectSubscriptions, subscribe, hk]

/-- Concrete instance of C10 on the empty table. -/
theorem callback_table_spec_witness :
    (fun _ => (none : Option (CallbackInfo Nat))) "A" = none ∧
    unsubscribe (fun _ => (none : Option (CallbackInfo Nat))) "A" =
      (fun _ => none) ∧
    connectSubscriptions (fun _ => (none : Option (CallbackInfo Nat)))
      "A" 7 "A" =
      some ⟨some 7, KIIROO_CONTROL_SERVICE_UUID, CHAR_Z_UUID⟩ ∧
    handleNotification
      (connectSubscriptions (fun _ => (none : Option (CallbackInfo Nat)))
        "A" 7) "A" = some 7 := by
  have h := callback_table_spec (fun _ => (none : Option (CallbackInfo Nat)))
    "A" "s" "s2" "c" "c2" none none 7
  exact ⟨rfl, h.2.2.1 rfl, h.2.2.2.2.2.1, h.2.2.2.2.2.2.1⟩

end KiirooSDK
